import Mathlib

/-!
Shallow embedding of `src/remove_big_objects.py` (function `remove_big_objects`
and its helper `_check_dtype_supported`).

Modelling choices:
* An ndarray is a dtype tag, a shape, and a flat row-major list of `Int`
  values (boolean arrays use 0/1; float/str arrays only matter for the
  dtype check, their payload is irrelevant).
* `np.bincount` is `bincount` below: on a nonempty list of naturals it
  returns the occurrence counts indexed `0 .. max`; on the empty list it
  returns the empty list.  Its Python counterpart raises `ValueError` on a
  negative entry; the embedding performs that negativity test explicitly
  before calling `bincount`, which matches the `try/except` at lines 76-81.
* `scipy.ndimage.label` / `generate_binary_structure` are external library
  calls, not part of this repository.  `label_ndimage` is modelled from the
  spec: it assigns to every connected component of the foreground a unique
  positive label and 0 to background, with connectivity-`c` adjacency
  (neighbours differing by at most 1 in every axis and with total absolute
  coordinate difference at most `c`).  It is implemented as an executable
  minimum-label flood fill; the spec promises unique positive labels per
  component, not consecutive numbering, and the function under test only
  consumes per-label occurrence counts, which do not depend on numbering.
* The in-place/copy distinction (lines 61-64) is modelled by
  `remove_big_objects_mem`, which runs the pure core on a buffer stored in
  an explicit heap of arrays addressed by index.
* The warning at lines 83-85 only writes to a logging sink and does not
  affect the buffer or the result, so it is not modelled.
-/

/-- Element type tag of an ndarray.  `int` stands for all the numpy integer
dtypes accepted by `np.issubdtype(ar.dtype, np.integer)`; `float` and `str`
are representatives of the rejected dtypes. -/
inductive DType where
  | bool
  | int
  | float
  | str
deriving DecidableEq, Repr

/-- Predicate of `_check_dtype_supported`: bool and integer dtypes pass. -/
def DType.supported : DType → Bool
  | .bool => true
  | .int => true
  | .float => false
  | .str => false

/-- An N-dimensional numpy array: dtype, shape, and row-major flat data. -/
structure NDArray where
  dtype : DType
  shape : List Nat
  data : List Int
deriving DecidableEq, Repr

instance : Inhabited NDArray := ⟨⟨.int, [], []⟩⟩

/-- Errors `remove_big_objects` can raise. -/
inductive RBOError where
  | typeError
  | valueError
deriving DecidableEq, Repr

/-- Embedding of `_check_dtype_supported` (lines 7-11): raise `TypeError`
unless the dtype is bool or integer. -/
def check_dtype_supported (ar : NDArray) : Except RBOError Unit :=
  if ar.dtype.supported then .ok () else .error .typeError

/-- Row-major multi-index of flat index `i` in the given shape. -/
def coordsOf : List Nat → Nat → List Nat
  | [], _ => []
  | _ :: ds, i => i / ds.prod :: coordsOf ds (i % ds.prod)

/-- Adjacency of two flat indices under the structuring element
`generate_binary_structure (shape.length) conn`: distinct cells whose
coordinates differ by at most 1 on every axis, with the sum of the absolute
differences at most `conn`. -/
def adjacentB (shape : List Nat) (conn : Nat) (i j : Nat) : Bool :=
  let ds := List.zipWith (fun a b => ((a : Int) - (b : Int)).natAbs)
    (coordsOf shape i) (coordsOf shape j)
  (i != j) && ds.all (fun d => decide (d ≤ 1)) && decide (ds.sum ≤ conn)

/-- Foreground test: cell `i` of the array holds a nonzero value. -/
def fgIdx (ar : NDArray) (i : Nat) : Bool :=
  ar.data.getD i 0 != 0

/-- One flood-fill sweep: each foreground cell takes the minimum of its label
and the labels of its foreground neighbours; background cells stay 0. -/
def stepLabels (ar : NDArray) (conn : Nat) (L : List Nat) : List Nat :=
  (List.range L.length).map (fun i =>
    if fgIdx ar i then
      (List.range L.length).foldl (fun m j =>
        if adjacentB ar.shape conn i j && fgIdx ar j then
          Nat.min m (L.getD j m)
        else m) (L.getD i 0)
    else 0)

/-- Iterate `stepLabels` a given number of times. -/
def iterLabels (ar : NDArray) (conn : Nat) : Nat → List Nat → List Nat
  | 0, L => L
  | n + 1, L => iterLabels ar conn n (stepLabels ar conn L)

/-- Initial labelling: foreground cell `i` gets the provisional label
`i + 1`, background gets 0. -/
def initLabels (ar : NDArray) : List Nat :=
  (List.range ar.data.length).map (fun i => if fgIdx ar i then i + 1 else 0)

/-- Modelled from the spec: the external connected-component labelling
primitive `scipy.ndimage.label(ar, generate_binary_structure(ar.ndim, conn))`
used at lines 70-72, which the spec describes as assigning to each connected
component a unique positive integer identifier with 0 denoting background.
Implemented as a minimum-label flood fill; after `data.length` sweeps each
component is labelled by the smallest provisional label it contains. -/
def label_ndimage (ar : NDArray) (conn : Nat) : List Nat :=
  iterLabels ar conn ar.data.length (initLabels ar)

/-- Embedding of `np.bincount` on non-negative input: occurrence counts of
each value from 0 to the maximum.  Empty input yields the empty list. -/
def bincount (l : List Nat) : List Nat :=
  match l with
  | [] => []
  | _ => (List.range (l.foldr Nat.max 0 + 1)).map (fun v => l.count v)

/-- Label map used by `remove_big_objects`: connected-component labels for a
boolean array (lines 69-72), the values themselves for an integer-labelled
array (lines 73-74). -/
def labelsOf (ar : NDArray) (connectivity : Nat) : List Int :=
  if ar.dtype = .bool then (label_ndimage ar connectivity).map Int.ofNat
  else ar.data

/-- The histogram-and-mask pass of lines 87-89 applied to the working
buffer: `component_sizes = np.bincount(ccs.ravel())`,
`too_big = component_sizes > max_size`, `too_big_mask = too_big[ccs]`,
`out[too_big_mask] = 0`. -/
def maskedData (ar : NDArray) (max_size connectivity : Nat) : List Int :=
  let ccs := labelsOf ar connectivity
  let component_sizes := bincount (ccs.map Int.toNat)
  let too_big := component_sizes.map (fun c => decide (max_size < c))
  (List.range ar.data.length).map (fun i =>
    if too_big.getD (ccs.getD i 0).toNat false then 0
    else ar.data.getD i 0)

/-- Embedding of `remove_big_objects` (lines 13-91), as a pure function on
the working buffer (the in-place/copy choice is handled separately by
`remove_big_objects_mem`).  Steps, in source order: dtype check; the
`max_size == 0` shortcut (lines 66-67); label map selection (lines 69-74);
`ValueError` on negative labels (lines 76-81); the histogram-and-mask pass
(lines 87-89, `maskedData`). -/
def remove_big_objects (ar : NDArray) (max_size connectivity : Nat) :
    Except RBOError NDArray :=
  match check_dtype_supported ar with
  | .error e => .error e
  | .ok _ =>
    let out := ar
    if max_size = 0 then .ok out
    else
      let ccs : List Int := labelsOf ar connectivity
      if ccs.any (fun v => decide (v < 0)) then .error .valueError
      else .ok { out with data := maskedData ar max_size connectivity }

/-- Variant of `remove_big_objects` with the `max_size == 0` shortcut of
lines 66-67 removed, i.e. the full label/histogram/mask path unconditionally.
Used to settle the refinement claim that the shortcut is a pure
optimization. -/
def remove_big_objects_noshortcut (ar : NDArray) (max_size connectivity : Nat) :
    Except RBOError NDArray :=
  match check_dtype_supported ar with
  | .error e => .error e
  | .ok _ =>
    let out := ar
    let ccs : List Int := labelsOf ar connectivity
    if ccs.any (fun v => decide (v < 0)) then .error .valueError
    else .ok { out with data := maskedData ar max_size connectivity }

/-- A heap of array buffers, addressed by list index. -/
structure Heap where
  bufs : List NDArray
deriving DecidableEq, Repr

/-- Embedding of the in-place/copy behaviour of `remove_big_objects`
(lines 61-64 and 91): given a heap and the address of the input buffer,
`in_place = true` overwrites the input buffer and returns its address;
`in_place = false` allocates the result as a fresh buffer and returns the
fresh address.  On an error the heap is returned unchanged: in the source,
`TypeError` is raised before the buffer choice and `ValueError` before the
only write (`out[too_big_mask] = 0`), so no cell of any existing buffer has
been modified when an exception propagates. -/
def remove_big_objects_mem (h : Heap) (p : Nat) (max_size connectivity : Nat)
    (in_place : Bool) : Heap × Except RBOError Nat :=
  let ar := h.bufs.getD p default
  match remove_big_objects ar max_size connectivity with
  | .error e => (h, .error e)
  | .ok r =>
    if in_place then (⟨h.bufs.set p r⟩, .ok p)
    else (⟨h.bufs ++ [r]⟩, .ok h.bufs.length)

/-- Set of cells reachable so far, expanded one adjacency step through the
foreground. -/
def expandReach (ar : NDArray) (conn : Nat) (s : List Bool) : List Bool :=
  (List.range s.length).map (fun j =>
    s.getD j false ||
      (fgIdx ar j && (List.range s.length).any (fun k =>
        s.getD k false && adjacentB ar.shape conn j k)))

/-- Iterate `expandReach` a given number of times. -/
def iterReach (ar : NDArray) (conn : Nat) : Nat → List Bool → List Bool
  | 0, s => s
  | n + 1, s => iterReach ar conn n (expandReach ar conn s)

/-- Cells reachable from cell `i` through foreground cells under the given
connectivity (saturated after `data.length` expansion steps). -/
def reachFrom (ar : NDArray) (conn : Nat) (i : Nat) : List Bool :=
  iterReach ar conn ar.data.length
    ((List.range ar.data.length).map (fun j => j == i))

/-- Two cells lie in the same connected component. -/
def sameCompB (ar : NDArray) (conn : Nat) (i j : Nat) : Bool :=
  (reachFrom ar conn i).getD j false

/-- Number of pixels of the connected component of cell `i`. -/
def compSize (ar : NDArray) (conn : Nat) (i : Nat) : Nat :=
  (List.range ar.data.length).countP (fun j =>
    fgIdx ar j && sameCompB ar conn i j)

/-- The list `L` is a valid component labelling of `ar`: it has one entry
per cell, gives background cells label 0 and foreground cells a nonzero
label, and two cells share a foreground label exactly when they lie in the
same connected component.  This is the contract the spec states for the
external labelling primitive. -/
def validLabelingB (ar : NDArray) (conn : Nat) (L : List Nat) : Bool :=
  (L.length == ar.data.length) &&
  (List.range L.length).all (fun i =>
    (if fgIdx ar i then L.getD i 0 != 0 else L.getD i 0 == 0) &&
    (!(fgIdx ar i) || (List.range L.length).all (fun j =>
      (L.getD j 0 == L.getD i 0) == (fgIdx ar j && sameCompB ar conn i j))))

deriving instance DecidableEq for Except

/-- The boolean example array of the spec and of the docstring at lines
41-43: `[[0,0,0,1,0],[1,1,1,0,0],[1,1,1,0,1]]`. -/
def arExample : NDArray :=
  ⟨.bool, [3, 5], [0, 0, 0, 1, 0, 1, 1, 1, 0, 0, 1, 1, 1, 0, 1]⟩

/-! Supporting lemmas about lists. -/

theorem getD_of_range_map {β : Type} (f : Nat → β) (n i : Nat) (d : β)
    (h : i < n) : ((List.range n).map f).getD i d = f i := by
  rw [List.getD_eq_getElem _ _ (by simpa using h)]
  simp

theorem getD_mem {α : Type} (l : List α) (i : Nat) (d : α) (h : i < l.length) :
    l.getD i d ∈ l := by
  rw [List.getD_eq_getElem _ _ h]
  exact List.getElem_mem h

theorem mem_le_foldr_max (l : List Nat) (v : Nat) (h : v ∈ l) :
    v ≤ l.foldr Nat.max 0 := by
  induction l with
  | nil => cases h
  | cons x xs ih =>
    rcases List.mem_cons.mp h with rfl | h2
    · exact Nat.le_max_left _ _
    · exact Nat.le_trans (ih h2) (Nat.le_max_right _ _)

theorem bincount_getD (l : List Nat) (v : Nat) (hv : v ∈ l) :
    (bincount l).getD v 0 = l.count v := by
  have hlt : v < l.foldr Nat.max 0 + 1 :=
    Nat.lt_succ_of_le (mem_le_foldr_max l v hv)
  cases l with
  | nil => cases hv
  | cons x xs => exact getD_of_range_map _ _ _ _ hlt

theorem count_eq_countP_range (l : List Nat) (a : Nat) :
    l.count a = (List.range l.length).countP (fun j => l.getD j 0 == a) := by
  induction l with
  | nil => simp
  | cons x xs ih =>
    rw [List.length_cons, List.range_succ_eq_map, List.countP_cons,
      List.countP_map, List.count_cons]
    simp only [Function.comp_def, List.getD_cons_succ, List.getD_cons_zero]
    rw [← ih]

theorem count_map_toNat (l : List Int) (v : Int) (hl : ∀ x ∈ l, 0 ≤ x)
    (hv : 0 ≤ v) : (l.map Int.toNat).count v.toNat = l.count v := by
  induction l with
  | nil => simp
  | cons x xs ih =>
    have hx : (0 : Int) ≤ x := hl x (List.mem_cons_self x xs)
    have hxs : ∀ y ∈ xs, (0 : Int) ≤ y := fun y hy =>
      hl y (List.mem_cons_of_mem x hy)
    simp only [List.map_cons, List.count_cons, ih hxs]
    congr 1
    by_cases h : v.toNat = x.toNat
    · have hvx : v = x := by
        calc v = (v.toNat : Int) := (Int.toNat_of_nonneg hv).symm
        _ = (x.toNat : Int) := by rw [h]
        _ = x := Int.toNat_of_nonneg hx
      simp [h, hvx]
    · have hvx : v ≠ x := fun hc => h (by rw [hc])
      have h2 : ¬x.toNat = v.toNat := fun hc => h hc.symm
      have h3 : ¬x = v := fun hc => hvx hc.symm
      simp [h2, h3]

theorem stepLabels_length (ar : NDArray) (conn : Nat) (L : List Nat) :
    (stepLabels ar conn L).length = L.length := by
  simp [stepLabels]

theorem iterLabels_length (ar : NDArray) (conn n : Nat) (L : List Nat) :
    (iterLabels ar conn n L).length = L.length := by
  induction n generalizing L with
  | zero => rfl
  | succ m ih => rw [iterLabels, ih, stepLabels_length]

theorem label_ndimage_length (ar : NDArray) (conn : Nat) :
    (label_ndimage ar conn).length = ar.data.length := by
  rw [label_ndimage, iterLabels_length, initLabels, List.length_map,
    List.length_range]

theorem labelsOf_length (ar : NDArray) (conn : Nat) :
    (labelsOf ar conn).length = ar.data.length := by
  rw [labelsOf]
  split
  · rw [List.length_map, label_ndimage_length]
  · rfl

theorem labelsOf_nonneg (ar : NDArray) (conn : Nat) (hd : ar.dtype = .bool) :
    ∀ v ∈ labelsOf ar conn, 0 ≤ v := by
  rw [labelsOf, if_pos hd]
  intro v hv
  rcases List.mem_map.mp hv with ⟨w, _, rfl⟩
  exact Int.ofNat_nonneg w

theorem any_neg_eq_false (l : List Int) (h : ∀ v ∈ l, 0 ≤ v) :
    (l.any fun v => decide (v < 0)) = false := by
  rw [List.any_eq_false]
  intro v hv
  simp [Int.not_lt.mpr (h v hv)]

theorem remove_big_objects_ok_cases (ar : NDArray) (ms conn : Nat)
    (out : NDArray) (h : remove_big_objects ar ms conn = .ok out) :
    ar.dtype.supported = true ∧
      ((ms = 0 ∧ out = ar) ∨
        (ms ≠ 0 ∧ out = { ar with data := maskedData ar ms conn })) := by
  by_cases hd : ar.dtype.supported
  · refine ⟨hd, ?_⟩
    by_cases hms : ms = 0
    · simp only [remove_big_objects, check_dtype_supported, hd, if_true,
        hms, if_pos] at h
      exact Or.inl ⟨hms, (Except.ok.inj h).symm⟩
    · by_cases hneg : ((labelsOf ar conn).any fun v => decide (v < 0)) = true
      · simp only [remove_big_objects, check_dtype_supported, hd, if_true,
          hms, if_false, hneg, reduceCtorEq] at h
      · simp only [remove_big_objects, check_dtype_supported, hd, if_true,
          hms, if_false, Bool.not_eq_true] at h
        rw [Bool.not_eq_true] at hneg
        rw [if_neg (by rw [hneg]; exact Bool.false_ne_true)] at h
        exact Or.inr ⟨hms, (Except.ok.inj h).symm⟩
  · simp only [remove_big_objects, check_dtype_supported, hd,
      Bool.false_eq_true, if_false, reduceCtorEq] at h

theorem getD_map_of_lt {α β : Type} (l : List α) (f : α → β) (i : Nat)
    (d : β) (d0 : α) (h : i < l.length) :
    (l.map f).getD i d = f (l.getD i d0) := by
  rw [List.getD_eq_getElem _ _ (by simpa using h), List.getD_eq_getElem _ _ h]
  simp

theorem bincount_mem_lt (l : List Nat) (v : Nat) (hv : v ∈ l) :
    v < (bincount l).length := by
  cases l with
  | nil => cases hv
  | cons x xs =>
    show v < ((List.range _).map _).length
    rw [List.length_map, List.length_range]
    exact Nat.lt_succ_of_le (mem_le_foldr_max _ v hv)

theorem remove_big_objects_eq_ok (ar : NDArray) (ms conn : Nat)
    (hd : ar.dtype.supported = true) (hms : ms ≠ 0)
    (hneg : ∀ v ∈ labelsOf ar conn, 0 ≤ v) :
    remove_big_objects ar ms conn =
      .ok { ar with data := maskedData ar ms conn } := by
  simp only [remove_big_objects, check_dtype_supported, hd, if_true, hms,
    if_false, any_neg_eq_false _ hneg, Bool.false_eq_true]

theorem remove_big_objects_noshortcut_eq_ok (ar : NDArray) (ms conn : Nat)
    (hd : ar.dtype.supported = true)
    (hneg : ∀ v ∈ labelsOf ar conn, 0 ≤ v) :
    remove_big_objects_noshortcut ar ms conn =
      .ok { ar with data := maskedData ar ms conn } := by
  simp only [remove_big_objects_noshortcut, check_dtype_supported, hd, if_true,
    any_neg_eq_false _ hneg, Bool.false_eq_true, if_false]

theorem remove_big_objects_zero_eq (ar : NDArray) (conn : Nat)
    (hd : ar.dtype.supported = true) :
    remove_big_objects ar 0 conn = .ok ar := by
  simp [remove_big_objects, check_dtype_supported, hd]

theorem maskedData_length (ar : NDArray) (ms conn : Nat) :
    (maskedData ar ms conn).length = ar.data.length := by
  simp [maskedData]

theorem maskedData_getD_cases (ar : NDArray) (ms conn i : Nat) :
    (maskedData ar ms conn).getD i 0 = 0 ∨
      (maskedData ar ms conn).getD i 0 = ar.data.getD i 0 := by
  by_cases hi : i < ar.data.length
  · simp only [maskedData]
    rw [getD_of_range_map _ _ _ _ hi]
    split
    · exact Or.inl rfl
    · exact Or.inr rfl
  · left
    rw [List.getD_eq_default]
    rw [maskedData_length]
    exact Nat.le_of_not_lt hi

theorem maskedData_getD_count (ar : NDArray) (ms conn i : Nat)
    (hi : i < ar.data.length) (hneg : ∀ v ∈ labelsOf ar conn, 0 ≤ v) :
    (maskedData ar ms conn).getD i 0 =
      if ms < (labelsOf ar conn).count ((labelsOf ar conn).getD i 0) then 0
      else ar.data.getD i 0 := by
  have hli : i < (labelsOf ar conn).length := by
    rw [labelsOf_length]; exact hi
  have hmem : (labelsOf ar conn).getD i 0 ∈ labelsOf ar conn :=
    getD_mem _ _ _ hli
  have hv0 : 0 ≤ (labelsOf ar conn).getD i 0 := hneg _ hmem
  have hmemN : ((labelsOf ar conn).getD i 0).toNat ∈
      (labelsOf ar conn).map Int.toNat := List.mem_map_of_mem _ hmem
  simp only [maskedData]
  rw [getD_of_range_map _ _ _ _ hi,
    getD_map_of_lt _ _ _ _ 0 (bincount_mem_lt _ _ hmemN),
    bincount_getD _ _ hmemN, count_map_toNat _ _ hneg hv0]
  simp only [decide_eq_true_eq]

theorem count_labels_eq_compSize (ar : NDArray) (conn i : Nat)
    (hv : validLabelingB ar conn (label_ndimage ar conn) = true)
    (hi : i < ar.data.length) (hfg : fgIdx ar i = true) :
    (label_ndimage ar conn).count ((label_ndimage ar conn).getD i 0) =
      compSize ar conn i := by
  have hlen : (label_ndimage ar conn).length = ar.data.length :=
    label_ndimage_length ar conn
  rw [validLabelingB, Bool.and_eq_true, List.all_eq_true] at hv
  obtain ⟨-, hall⟩ := hv
  have hi2 : i < (label_ndimage ar conn).length := by rw [hlen]; exact hi
  have hyi := hall i (List.mem_range.mpr hi2)
  rw [Bool.and_eq_true, Bool.or_eq_true] at hyi
  rcases hyi.2 with hbad | hall2
  · rw [hfg] at hbad
    simp at hbad
  · rw [List.all_eq_true] at hall2
    rw [count_eq_countP_range _ _, hlen, compSize]
    apply List.countP_congr
    intro j hj
    have hj2 : j < (label_ndimage ar conn).length := by
      rw [hlen]; exact List.mem_range.mp hj
    have hje := hall2 j (List.mem_range.mpr hj2)
    rw [beq_iff_eq] at hje
    rw [hje]

theorem remove_big_objects_not_type_error (ar : NDArray) (ms conn : Nat)
    (hsup : ar.dtype.supported = true) :
    remove_big_objects ar ms conn ≠ .error .typeError := by
  simp only [remove_big_objects, check_dtype_supported, hsup, if_true]
  by_cases hms : ms = 0
  · simp [hms]
  · simp only [hms, if_false]
    by_cases hneg : ((labelsOf ar conn).any fun v => decide (v < 0)) = true
    · simp [hneg]
    · rw [Bool.not_eq_true] at hneg
      simp [hneg]

/-! Theorems settling the claims. -/

/-- C4: for every supported input array, `remove_big_objects` with
`max_size = 0` returns the working buffer unchanged: the output equals the
input element for element. -/
theorem remove_big_objects_max_size_zero_noop (ar : NDArray) (conn : Nat)
    (hd : ar.dtype.supported = true) :
    remove_big_objects ar 0 conn = .ok ar :=
  remove_big_objects_zero_eq ar conn hd

theorem remove_big_objects_max_size_zero_noop_witness :
    DType.supported .bool = true ∧
    remove_big_objects ⟨.bool, [1], [1]⟩ 0 1 = .ok ⟨.bool, [1], [1]⟩ :=
  ⟨by decide, remove_big_objects_max_size_zero_noop ⟨.bool, [1], [1]⟩ 1
    (by decide)⟩

/-- C9: whenever `remove_big_objects` returns a result, the result has the
same dtype, shape and element count as the input, and every position that
holds 0 (background, label 0) in the input still holds 0 in the result. -/
theorem remove_big_objects_shape_dtype_background (ar out : NDArray)
    (ms conn : Nat) (hok : remove_big_objects ar ms conn = .ok out) :
    out.dtype = ar.dtype ∧ out.shape = ar.shape ∧
    out.data.length = ar.data.length ∧
    ∀ i, ar.data.getD i 0 = 0 → out.data.getD i 0 = 0 := by
  rcases remove_big_objects_ok_cases ar ms conn out hok with ⟨-, hcase⟩
  rcases hcase with ⟨-, rfl⟩ | ⟨-, rfl⟩
  · exact ⟨rfl, rfl, rfl, fun i hi => hi⟩
  · refine ⟨rfl, rfl, maskedData_length ar ms conn, fun i hi => ?_⟩
    rcases maskedData_getD_cases ar ms conn i with h0 | heq
    · exact h0
    · rw [heq]
      exact hi

theorem remove_big_objects_shape_dtype_background_witness :
    remove_big_objects ⟨.int, [2, 2], [2, 2, 0, 2]⟩ 2 1 =
      .ok ⟨.int, [2, 2], [0, 0, 0, 0]⟩ ∧
    ((⟨.int, [2, 2], [0, 0, 0, 0]⟩ : NDArray).dtype =
        (⟨.int, [2, 2], [2, 2, 0, 2]⟩ : NDArray).dtype ∧
      (⟨.int, [2, 2], [0, 0, 0, 0]⟩ : NDArray).shape =
        (⟨.int, [2, 2], [2, 2, 0, 2]⟩ : NDArray).shape ∧
      (⟨.int, [2, 2], [0, 0, 0, 0]⟩ : NDArray).data.length =
        (⟨.int, [2, 2], [2, 2, 0, 2]⟩ : NDArray).data.length ∧
      ∀ i, (⟨.int, [2, 2], [2, 2, 0, 2]⟩ : NDArray).data.getD i 0 = 0 →
        (⟨.int, [2, 2], [0, 0, 0, 0]⟩ : NDArray).data.getD i 0 = 0) :=
  ⟨by decide, remove_big_objects_shape_dtype_background _ _ 2 1 (by decide)⟩

/-- C10: whenever `remove_big_objects` returns a result, every element of
the result equals either the corresponding input element or zero; no other
value is ever introduced and no surviving pixel is relabelled. -/
theorem remove_big_objects_no_new_values (ar out : NDArray) (ms conn : Nat)
    (hok : remove_big_objects ar ms conn = .ok out) :
    ∀ i, out.data.getD i 0 = ar.data.getD i 0 ∨ out.data.getD i 0 = 0 := by
  rcases remove_big_objects_ok_cases ar ms conn out hok with ⟨-, hcase⟩
  rcases hcase with ⟨-, rfl⟩ | ⟨-, rfl⟩
  · exact fun i => Or.inl rfl
  · intro i
    rcases maskedData_getD_cases ar ms conn i with h0 | heq
    · exact Or.inr h0
    · exact Or.inl heq

theorem remove_big_objects_no_new_values_witness :
    remove_big_objects ⟨.int, [2, 2], [2, 2, 0, 2]⟩ 2 1 =
      .ok ⟨.int, [2, 2], [0, 0, 0, 0]⟩ ∧
    ∀ i, (⟨.int, [2, 2], [0, 0, 0, 0]⟩ : NDArray).data.getD i 0 =
        (⟨.int, [2, 2], [2, 2, 0, 2]⟩ : NDArray).data.getD i 0 ∨
      (⟨.int, [2, 2], [0, 0, 0, 0]⟩ : NDArray).data.getD i 0 = 0 :=
  ⟨by decide, remove_big_objects_no_new_values _ _ 2 1 (by decide)⟩

/-- C2: for every supported input whose label map has no negative entry and
every `max_size > 0`, the result zeroes exactly the pixels whose label has an
occurrence count exceeding `max_size`, and leaves every other pixel's value
unchanged. -/
theorem remove_big_objects_zeroes_exactly_overcount (ar : NDArray)
    (ms conn : Nat) (hd : ar.dtype.supported = true) (hms : ms ≠ 0)
    (hneg : ∀ v ∈ labelsOf ar conn, 0 ≤ v) :
    ∃ out, remove_big_objects ar ms conn = .ok out ∧
      ∀ i, i < ar.data.length →
        out.data.getD i 0 =
          if ms < (labelsOf ar conn).count ((labelsOf ar conn).getD i 0)
          then 0 else ar.data.getD i 0 :=
  ⟨_, remove_big_objects_eq_ok ar ms conn hd hms hneg, fun i hi =>
    maskedData_getD_count ar ms conn i hi hneg⟩

theorem remove_big_objects_zeroes_exactly_overcount_witness :
    DType.supported .int = true ∧ (2 : Nat) ≠ 0 ∧
    (∀ v ∈ labelsOf ⟨.int, [2, 2], [2, 2, 0, 2]⟩ 1, 0 ≤ v) ∧
    (∃ out, remove_big_objects ⟨.int, [2, 2], [2, 2, 0, 2]⟩ 2 1 = .ok out ∧
      ∀ i, i < (⟨.int, [2, 2], [2, 2, 0, 2]⟩ : NDArray).data.length →
        out.data.getD i 0 =
          if 2 < (labelsOf ⟨.int, [2, 2], [2, 2, 0, 2]⟩ 1).count
              ((labelsOf ⟨.int, [2, 2], [2, 2, 0, 2]⟩ 1).getD i 0)
          then 0
          else (⟨.int, [2, 2], [2, 2, 0, 2]⟩ : NDArray).data.getD i 0) :=
  ⟨by decide, by decide, by decide,
    remove_big_objects_zeroes_exactly_overcount _ 2 1 (by decide) (by decide)
      (by decide)⟩

/-- C1 counterexample: on the 1-pixel boolean array `[1]` with
`max_size = 1`, the single connected component has size 1, which is at most
`max_size`, yet `remove_big_objects` keeps it (the output still holds 1),
refuting the claim that components with pixel count at most `max_size` are
removed. -/
theorem claimC1_counterexample :
    fgIdx ⟨.bool, [1], [1]⟩ 0 = true ∧
    compSize ⟨.bool, [1], [1]⟩ 1 0 ≤ 1 ∧
    remove_big_objects ⟨.bool, [1], [1]⟩ 1 1 = .ok ⟨.bool, [1], [1]⟩ := by
  decide

/-- C1 (amended): for every boolean input, `max_size > 0` and connectivity,
assuming the external labelling primitive meets its contract
(`validLabelingB`), a foreground pixel is zeroed when its connected
component has more than `max_size` pixels and is preserved unchanged when
its component has at most `max_size` pixels: big components are removed,
small ones kept, the opposite of the claimed direction. -/
theorem remove_big_objects_component_filter (ar : NDArray) (ms conn i : Nat)
    (hd : ar.dtype = .bool) (hms : ms ≠ 0)
    (hv : validLabelingB ar conn (label_ndimage ar conn) = true)
    (hi : i < ar.data.length) (hfg : fgIdx ar i = true) :
    ∃ out, remove_big_objects ar ms conn = .ok out ∧
      out.data.getD i 0 =
        if ms < compSize ar conn i then 0 else ar.data.getD i 0 := by
  have hsup : ar.dtype.supported = true := by rw [hd]; rfl
  have hneg := labelsOf_nonneg ar conn hd
  refine ⟨_, remove_big_objects_eq_ok ar ms conn hsup hms hneg, ?_⟩
  show (maskedData ar ms conn).getD i 0 = _
  rw [maskedData_getD_count ar ms conn i hi hneg]
  have hL : labelsOf ar conn = (label_ndimage ar conn).map Int.ofNat := by
    rw [labelsOf, if_pos hd]
  have hil : i < (label_ndimage ar conn).length := by
    rw [label_ndimage_length]
    exact hi
  rw [hL, getD_map_of_lt _ _ _ _ 0 hil,
    List.count_map_of_injective _ _ (fun a b hab => Int.ofNat.inj hab),
    count_labels_eq_compSize ar conn i hv hi hfg]

theorem remove_big_objects_component_filter_witness :
    (⟨.bool, [2], [1, 1]⟩ : NDArray).dtype = .bool ∧ (1 : Nat) ≠ 0 ∧
    validLabelingB ⟨.bool, [2], [1, 1]⟩ 1
      (label_ndimage ⟨.bool, [2], [1, 1]⟩ 1) = true ∧
    0 < (⟨.bool, [2], [1, 1]⟩ : NDArray).data.length ∧
    fgIdx ⟨.bool, [2], [1, 1]⟩ 0 = true ∧
    (∃ out, remove_big_objects ⟨.bool, [2], [1, 1]⟩ 1 1 = .ok out ∧
      out.data.getD 0 0 =
        if 1 < compSize ⟨.bool, [2], [1, 1]⟩ 1 0 then 0
        else (⟨.bool, [2], [1, 1]⟩ : NDArray).data.getD 0 0) :=
  ⟨by decide, by decide, by decide, by decide, by decide,
    remove_big_objects_component_filter ⟨.bool, [2], [1, 1]⟩ 1 1 0 (by decide)
      (by decide) (by decide) (by decide) (by decide)⟩

/-- C3 counterexample: on the spec example array with `max_size = 6` and
connectivity 1, the isolated single-pixel component at flat index 3 is a
foreground component of size 1, and the output keeps it at value 1 instead
of zeroing it; the output equals the input, refuting the claimed result. -/
theorem claimC3_counterexample :
    fgIdx arExample 3 = true ∧
    compSize arExample 1 3 = 1 ∧
    remove_big_objects arExample 6 1 = .ok arExample ∧
    arExample.data.getD 3 0 = 1 := by
  set_option maxRecDepth 10000 in decide

/-- C3 (amended): for the boolean input
`[[0,0,0,1,0],[1,1,1,0,0],[1,1,1,0,1]]` with `max_size = 6` and
connectivity 1, the output of `remove_big_objects` equals the input: no
foreground component has more than 6 pixels, so nothing is removed (the
7-pixel background bucket is marked, but zeroing background cells is a
no-op), and in particular the two isolated single-pixel components are
kept, not zeroed. -/
theorem remove_big_objects_example_unchanged :
    remove_big_objects arExample 6 1 = .ok arExample := by
  set_option maxRecDepth 10000 in decide

/-- C5 counterexample: on the 1-pixel boolean array `[1]` with
`max_size = 0`, the shortcut returns the input unchanged while the full
label/histogram/mask path zeroes the pixel, so the two program variants are
not extensionally equal at `max_size = 0`. -/
theorem claimC5_counterexample :
    remove_big_objects ⟨.bool, [1], [1]⟩ 0 1 = .ok ⟨.bool, [1], [1]⟩ ∧
    remove_big_objects_noshortcut ⟨.bool, [1], [1]⟩ 0 1 =
      .ok ⟨.bool, [1], [0]⟩ ∧
    remove_big_objects ⟨.bool, [1], [1]⟩ 0 1 ≠
      remove_big_objects_noshortcut ⟨.bool, [1], [1]⟩ 0 1 := by
  decide

/-- C5 (amended): the `max_size == 0` early return is not a pure
optimization but a semantic special case: for every supported input whose
label map has no negative entry, the shortcut returns the input unchanged,
while the full label/histogram/mask path at `max_size = 0` zeroes every
pixel (every label that occurs has a positive count, hence exceeds 0); the
two variants therefore agree only on arrays with no nonzero pixel. -/
theorem shortcut_not_pure_optimization (ar : NDArray) (conn : Nat)
    (hd : ar.dtype.supported = true)
    (hneg : ∀ v ∈ labelsOf ar conn, 0 ≤ v) :
    remove_big_objects ar 0 conn = .ok ar ∧
    ∃ out, remove_big_objects_noshortcut ar 0 conn = .ok out ∧
      ∀ i, out.data.getD i 0 = 0 := by
  refine ⟨remove_big_objects_zero_eq ar conn hd,
    ⟨_, remove_big_objects_noshortcut_eq_ok ar 0 conn hd hneg, fun i => ?_⟩⟩
  show (maskedData ar 0 conn).getD i 0 = 0
  by_cases hi : i < ar.data.length
  · rw [maskedData_getD_count ar 0 conn i hi hneg]
    have hli : i < (labelsOf ar conn).length := by
      rw [labelsOf_length]
      exact hi
    have hmem := getD_mem (labelsOf ar conn) i 0 hli
    rw [if_pos (List.count_pos_iff.mpr hmem)]
  · rw [List.getD_eq_default _ _
      (by rw [maskedData_length]; exact Nat.le_of_not_lt hi)]

theorem shortcut_not_pure_optimization_witness :
    DType.supported .bool = true ∧
    (∀ v ∈ labelsOf ⟨.bool, [1], [1]⟩ 1, 0 ≤ v) ∧
    (remove_big_objects ⟨.bool, [1], [1]⟩ 0 1 = .ok ⟨.bool, [1], [1]⟩ ∧
      ∃ out, remove_big_objects_noshortcut ⟨.bool, [1], [1]⟩ 0 1 = .ok out ∧
        ∀ i, out.data.getD i 0 = 0) :=
  ⟨by decide, by decide,
    shortcut_not_pure_optimization ⟨.bool, [1], [1]⟩ 1 (by decide)
      (by decide)⟩

/-- C6: for every input buffer on which the core computation succeeds,
`in_place = true` writes the result into the input buffer and returns the
very address of the input, while `in_place = false` returns a distinct fresh
address and leaves the input buffer element for element unmodified. -/
theorem remove_big_objects_mem_in_place (h : Heap) (p ms conn : Nat)
    (r : NDArray) (hp : p < h.bufs.length)
    (hok : remove_big_objects (h.bufs.getD p default) ms conn = .ok r) :
    remove_big_objects_mem h p ms conn true = (⟨h.bufs.set p r⟩, .ok p) ∧
    remove_big_objects_mem h p ms conn false =
      (⟨h.bufs ++ [r]⟩, .ok h.bufs.length) ∧
    h.bufs.length ≠ p ∧
    (h.bufs ++ [r]).getD p default = h.bufs.getD p default := by
  refine ⟨?_, ?_, Nat.ne_of_gt hp, List.getD_append _ _ _ _ hp⟩
  · simp only [remove_big_objects_mem, hok, if_true]
  · simp only [remove_big_objects_mem, hok, Bool.false_eq_true, if_false]

theorem remove_big_objects_mem_in_place_witness :
    0 < (Heap.mk [⟨.bool, [1], [1]⟩]).bufs.length ∧
    remove_big_objects
      ((Heap.mk [⟨.bool, [1], [1]⟩]).bufs.getD 0 default) 1 1 =
      .ok ⟨.bool, [1], [1]⟩ ∧
    (remove_big_objects_mem (Heap.mk [⟨.bool, [1], [1]⟩]) 0 1 1 true =
      (Heap.mk ((Heap.mk [⟨.bool, [1], [1]⟩]).bufs.set 0 ⟨.bool, [1], [1]⟩),
        .ok 0) ∧
    remove_big_objects_mem (Heap.mk [⟨.bool, [1], [1]⟩]) 0 1 1 false =
      (Heap.mk ((Heap.mk [⟨.bool, [1], [1]⟩]).bufs ++ [⟨.bool, [1], [1]⟩]),
        .ok (Heap.mk [⟨.bool, [1], [1]⟩]).bufs.length) ∧
    (Heap.mk [⟨.bool, [1], [1]⟩]).bufs.length ≠ 0 ∧
    ((Heap.mk [⟨.bool, [1], [1]⟩]).bufs ++
        [(⟨.bool, [1], [1]⟩ : NDArray)]).getD 0 default =
      (Heap.mk [⟨.bool, [1], [1]⟩]).bufs.getD 0 default) :=
  ⟨by decide, by decide,
    remove_big_objects_mem_in_place (Heap.mk [⟨.bool, [1], [1]⟩]) 0 1 1
      ⟨.bool, [1], [1]⟩ (by decide) (by decide)⟩

/-- C7: `remove_big_objects` raises a type error exactly when the input
element type is neither boolean nor integer, and in that case the heap is
returned untouched: the check precedes any buffer write, so the input array
is unchanged. -/
theorem remove_big_objects_type_error_iff (h : Heap) (p ms conn : Nat)
    (ip : Bool) :
    (remove_big_objects (h.bufs.getD p default) ms conn =
        .error .typeError ↔
      (h.bufs.getD p default).dtype.supported = false) ∧
    ((h.bufs.getD p default).dtype.supported = false →
      remove_big_objects_mem h p ms conn ip = (h, .error .typeError)) := by
  have herr : ∀ ar : NDArray, ar.dtype.supported = false →
      remove_big_objects ar ms conn = .error .typeError := by
    intro ar hsup
    simp [remove_big_objects, check_dtype_supported, hsup]
  refine ⟨⟨?_, herr _⟩, ?_⟩
  · intro he
    by_cases hsup : (h.bufs.getD p default).dtype.supported
    · exact absurd he (remove_big_objects_not_type_error _ ms conn hsup)
    · simpa using hsup
  · intro hf
    simp only [remove_big_objects_mem, herr _ hf]

theorem remove_big_objects_type_error_iff_witness :
    (remove_big_objects
        ((Heap.mk [⟨.float, [1], [1]⟩]).bufs.getD 0 default) 64 1 =
        .error .typeError ↔
      ((Heap.mk [⟨.float, [1], [1]⟩]).bufs.getD 0 default).dtype.supported =
        false) ∧
    remove_big_objects_mem (Heap.mk [⟨.float, [1], [1]⟩]) 0 64 1 false =
      (Heap.mk [⟨.float, [1], [1]⟩], .error .typeError) :=
  ⟨(remove_big_objects_type_error_iff (Heap.mk [⟨.float, [1], [1]⟩]) 0 64 1
      false).1,
    (remove_big_objects_type_error_iff (Heap.mk [⟨.float, [1], [1]⟩]) 0 64 1
      false).2 (by decide)⟩

theorem remove_big_objects_value_error_of_any (ar : NDArray) (ms conn : Nat)
    (hsup : ar.dtype.supported = true) (hms : ms ≠ 0)
    (hany : ((labelsOf ar conn).any fun w => decide (w < 0)) = true) :
    remove_big_objects ar ms conn = .error .valueError := by
  simp only [remove_big_objects, check_dtype_supported, hsup, if_true, hms,
    if_false, hany]

/-- C8: for every integer-typed input containing a negative value and
`max_size > 0`, `remove_big_objects` raises a value error (at the histogram
computation), and the heap is returned unchanged: no pixel of the working
buffer has been zeroed when the error is raised. -/
theorem remove_big_objects_negative_raises (h : Heap) (p ms conn : Nat)
    (ip : Bool) (v : Int)
    (hd : (h.bufs.getD p default).dtype = .int)
    (hv : v ∈ (h.bufs.getD p default).data) (hvneg : v < 0) (hms : ms ≠ 0) :
    remove_big_objects (h.bufs.getD p default) ms conn =
      .error .valueError ∧
    remove_big_objects_mem h p ms conn ip = (h, .error .valueError) := by
  have hsup : (h.bufs.getD p default).dtype.supported = true := by
    rw [hd]
    rfl
  have hlab : labelsOf (h.bufs.getD p default) conn =
      (h.bufs.getD p default).data := by
    rw [labelsOf, if_neg (by rw [hd]; intro hc; cases hc)]
  have hany : ((labelsOf (h.bufs.getD p default) conn).any fun w =>
      decide (w < 0)) = true := by
    rw [hlab, List.any_eq_true]
    exact ⟨v, hv, by simpa using hvneg⟩
  have herr := remove_big_objects_value_error_of_any _ ms conn hsup hms hany
  exact ⟨herr, by simp only [remove_big_objects_mem, herr]⟩

theorem remove_big_objects_negative_raises_witness :
    ((Heap.mk [⟨.int, [2, 2], [1, 1, 0, -3]⟩]).bufs.getD 0 default).dtype =
      .int ∧
    (-3 : Int) ∈
      ((Heap.mk [⟨.int, [2, 2], [1, 1, 0, -3]⟩]).bufs.getD 0 default).data ∧
    (-3 : Int) < 0 ∧ (64 : Nat) ≠ 0 ∧
    (remove_big_objects
        ((Heap.mk [⟨.int, [2, 2], [1, 1, 0, -3]⟩]).bufs.getD 0 default) 64
        1 = .error .valueError ∧
      remove_big_objects_mem (Heap.mk [⟨.int, [2, 2], [1, 1, 0, -3]⟩]) 0 64
        1 true = (Heap.mk [⟨.int, [2, 2], [1, 1, 0, -3]⟩],
          .error .valueError)) :=
  ⟨by decide, by decide, by decide, by decide,
    remove_big_objects_negative_raises
      (Heap.mk [⟨.int, [2, 2], [1, 1, 0, -3]⟩]) 0 64 1 true (-3) (by decide)
      (by decide) (by decide) (by decide)⟩
